import Mathlib

/-!
Shallow embedding of the inventory application's stock-movement validation
workflow (the Movement Validator) and its low-stock computation.

The backing store is modelled as:
  * `stock`    : the stock_levels table. The migration declares
                 UNIQUE(product_id, warehouse_id), so the table is a finite
                 map keyed by that pair; we embed it as a function
                 Nat → Nat → Option Int (None = no row). The handlers read a
                 row with .single() (at most one row by the constraint),
                 update it by id (a point update) or insert a fresh row
                 (defining the point).
  * `movements`: the append-only stock_movements table, kept as a list in
                 insertion order.

Quantities are DECIMAL columns; every quantity the UI writes comes from
parseInt/parseFloat and every arithmetic step is exact, so we embed
quantities as Int (exactness is all the claims need).

Each handler is translated line by line from its React event handler; the
document it validates is passed as an argument (the row the component holds)
and the handler returns the updated store, the updated document row and the
success flag (success toast vs error toast).
-/

namespace InventoryHub

/-- Document lifecycle statuses from the migration's CHECK constraints. -/
inductive DocStatus where
  | draft
  | waiting
  | ready
  | done
  | canceled
deriving DecidableEq, Repr

/-- movement_type CHECK (movement_type IN (receipt, delivery, transfer_in, transfer_out, adjustment)). -/
inductive MovementType where
  | receipt
  | delivery
  | transfer_in
  | transfer_out
  | adjustment
deriving DecidableEq, Repr

/-- One stock_movements row: product_id, warehouse_id, movement_type, signed
quantity, reference_id (the originating document). -/
structure Movement where
  product : Nat
  warehouse : Nat
  mtype : MovementType
  quantity : Int
  refId : Nat
deriving DecidableEq, Repr

/-- The mutable backing store the validators read and write: the
stock_levels map and the stock_movements ledger. -/
structure Store where
  stock : Nat → Nat → Option Int
  movements : List Movement

/-- Point update of the stock_levels map: the code's update-by-id on the
unique (product_id, warehouse_id) row, and also its insert of a fresh row. -/
def setQty (f : Nat → Nat → Option Int) (p w : Nat) (q : Int) : Nat → Nat → Option Int :=
  fun p2 w2 => if p2 = p ∧ w2 = w then some q else f p2 w2

/-- Balance of a pair, treating an absent row as 0 (the code's
`data ? Number(data.quantity) : 0` convention). -/
def qtyOrZero (s : Store) (p w : Nat) : Int :=
  (s.stock p w).getD 0

/-- The store with no movements and no stock rows (all balances zero). -/
def emptyStore : Store :=
  { stock := fun _ _ => none, movements := [] }

/-- A receipt_lines / delivery_lines row: product_id and quantity. -/
structure Line where
  product : Nat
  quantity : Int
deriving DecidableEq, Repr

/-- A receipts row together with its receipt_lines. -/
structure ReceiptDoc where
  id : Nat
  warehouse : Nat
  status : DocStatus
  validatedAt : Option Nat
  lines : List Line
deriving DecidableEq, Repr

/-- A deliveries row together with its delivery_lines. -/
structure DeliveryDoc where
  id : Nat
  warehouse : Nat
  status : DocStatus
  validatedAt : Option Nat
  lines : List Line
deriving DecidableEq, Repr

/-- An internal_transfers row: product, source and destination warehouses,
quantity. -/
structure TransferDoc where
  id : Nat
  product : Nat
  source : Nat
  destination : Nat
  quantity : Int
  status : DocStatus
  validatedAt : Option Nat
deriving DecidableEq, Repr

/-- A stock_adjustments row: counted_quantity, system_quantity and the
difference column computed at creation time. -/
structure AdjustmentDoc where
  id : Nat
  product : Nat
  warehouse : Nat
  counted : Int
  system : Int
  difference : Int
  status : DocStatus
  validatedAt : Option Nat
deriving DecidableEq, Repr

/-- One iteration of the loop in handleValidateReceipt
(src/src/pages/Receipts.tsx lines 108-142): read the (product, warehouse)
stock row; if it exists update it to quantity + line.quantity, otherwise
insert a row with quantity line.quantity; then insert one receipt movement
of +line.quantity referencing the receipt. -/
def applyReceiptLine (wh rid : Nat) (s : Store) (l : Line) : Store :=
  let stock2 :=
    match s.stock l.product wh with
    | some q => setQty s.stock l.product wh (q + l.quantity)
    | none => setQty s.stock l.product wh l.quantity
  { stock := stock2
    movements := s.movements ++ [⟨l.product, wh, MovementType.receipt, l.quantity, rid⟩] }

/-- handleValidateReceipt (src/src/pages/Receipts.tsx lines 94-155): reject
with an error toast when the receipt has no lines; otherwise post every line
in order and finally set the receipt to done with validated_at stamped.
There is no check on the receipt's current status. -/
def handleValidateReceipt (r : ReceiptDoc) (s : Store) (now : Nat) :
    Store × ReceiptDoc × Bool :=
  if r.lines.isEmpty then
    (s, r, false)
  else
    (r.lines.foldl (applyReceiptLine r.warehouse r.id) s,
     { r with status := DocStatus.done, validatedAt := some now },
     true)

/-- The loop in handleValidateDelivery (src/unnamed/part_000 lines 104-131):
for each line, read the stock row; if it is absent or its quantity is below
the line's quantity, show the insufficient-stock error and return at once —
WITHOUT undoing the updates already made for earlier lines. Otherwise deduct
the quantity and insert one delivery movement of -line.quantity. -/
def runDeliveryLines (wh rid : Nat) (s : Store) : List Line → Store × Bool
  | [] => (s, true)
  | l :: rest =>
    match s.stock l.product wh with
    | none => (s, false)
    | some q =>
      if q < l.quantity then
        (s, false)
      else
        runDeliveryLines wh rid
          { stock := setQty s.stock l.product wh (q - l.quantity)
            movements := s.movements ++ [⟨l.product, wh, MovementType.delivery, -l.quantity, rid⟩] }
          rest

/-- handleValidateDelivery (src/unnamed/part_000 lines 92-143): reject when
there are no lines; run the per-line loop; only when every line succeeded is
the delivery set to done with validated_at stamped. There is no check on the
delivery's current status. -/
def handleValidateDelivery (d : DeliveryDoc) (s : Store) (now : Nat) :
    Store × DeliveryDoc × Bool :=
  if d.lines.isEmpty then
    (s, d, false)
  else
    let res := runDeliveryLines d.warehouse d.id s d.lines
    if res.2 then
      (res.1, { d with status := DocStatus.done, validatedAt := some now }, true)
    else
      (res.1, d, false)

/-- handleValidateTransfer (src/unnamed/part_002 lines 86-161): read the
source stock row; reject when absent or below the transfer quantity;
otherwise deduct the source row, upsert the destination row (+quantity,
inserting it when absent), insert the transfer_out (-quantity at source) and
transfer_in (+quantity at destination) movements, and set the transfer to
done. There is no check on the transfer's current status. -/
def handleValidateTransfer (t : TransferDoc) (s : Store) (now : Nat) :
    Store × TransferDoc × Bool :=
  match s.stock t.product t.source with
  | none => (s, t, false)
  | some q =>
    if q < t.quantity then
      (s, t, false)
    else
      let stock1 := setQty s.stock t.product t.source (q - t.quantity)
      let stock2 :=
        match stock1 t.product t.destination with
        | some qd => setQty stock1 t.product t.destination (qd + t.quantity)
        | none => setQty stock1 t.product t.destination t.quantity
      ({ stock := stock2
         movements := s.movements ++
           [⟨t.product, t.source, MovementType.transfer_out, -t.quantity, t.id⟩,
            ⟨t.product, t.destination, MovementType.transfer_in, t.quantity, t.id⟩] },
       { t with status := DocStatus.done, validatedAt := some now },
       true)

/-- handleValidateAdjustment (src/src/pages/Adjustments.tsx lines 100-146):
upsert the (product, warehouse) stock row to exactly counted_quantity
(update when a row exists, insert otherwise), insert one adjustment movement
whose quantity is the stored difference column, and set the adjustment to
done. There is no check on the adjustment's current status and no sign check
on counted_quantity. -/
def handleValidateAdjustment (a : AdjustmentDoc) (s : Store) (now : Nat) :
    Store × AdjustmentDoc × Bool :=
  let stock2 :=
    match s.stock a.product a.warehouse with
    | some _ => setQty s.stock a.product a.warehouse a.counted
    | none => setQty s.stock a.product a.warehouse a.counted
  ({ stock := stock2
     movements := s.movements ++
       [⟨a.product, a.warehouse, MovementType.adjustment, a.difference, a.id⟩] },
   { a with status := DocStatus.done, validatedAt := some now },
   true)

/-- Adjustment creation, handleSubmit together with loadSystemQuantity
(src/src/pages/Adjustments.tsx lines 55-98): system_quantity is the pair's
current balance (0 when the row is absent) read when the product and
warehouse were selected, and difference = counted - system is computed and
stored with the draft document. -/
def createAdjustment (id p w : Nat) (counted : Int) (s : Store) : AdjustmentDoc :=
  let system := (s.stock p w).getD 0
  { id := id
    product := p
    warehouse := w
    counted := counted
    system := system
    difference := counted - system
    status := DocStatus.draft
    validatedAt := none }

/-- Transfer creation, handleSubmit (src/unnamed/part_002 lines 51-84):
when the chosen source and destination warehouses are equal, show an error
toast and return before any insert; otherwise insert a draft transfer row. -/
def handleSubmitTransfer (newId source destination product : Nat) (quantity : Int)
    (transfers : List TransferDoc) : List TransferDoc × Bool :=
  if source = destination then
    (transfers, false)
  else
    (transfers ++
      [{ id := newId
         product := product
         source := source
         destination := destination
         quantity := quantity
         status := DocStatus.draft
         validatedAt := none }],
     true)

/-- A products row as the catalog pages read it. -/
structure ProductRow where
  id : Nat
  reorder_level : Int
deriving DecidableEq, Repr

/-- A stock_levels row as the catalog pages read it. -/
structure StockRow where
  product_id : Nat
  warehouse_id : Nat
  quantity : Int
deriving DecidableEq, Repr

/-- getProductStock (src/unnamed/part_001 lines 102-105): filter the loaded
stock_levels to the product and reduce-add their quantities from 0. -/
def getProductStock (stockLevels : List StockRow) (productId : Nat) : Int :=
  (stockLevels.filter (fun sl => sl.product_id = productId)).foldl
    (fun sum sl => sum + sl.quantity) 0

/-- The Products page's per-row flag (src/unnamed/part_001 line 202):
isLowStock = currentStock <= product.reorder_level. -/
def isLowStock (stockLevels : List StockRow) (p : ProductRow) : Bool :=
  getProductStock stockLevels p.id ≤ p.reorder_level

/-- One iteration of the Dashboard's stockMap forEach
(src/src/pages/Dashboard.tsx lines 44-49): set the row's product key to
(previous value or 0) + the row's quantity. -/
def stockMapStep (m : Nat → Option Int) (sl : StockRow) : Nat → Option Int :=
  fun pid => if pid = sl.product_id then some ((m sl.product_id).getD 0 + sl.quantity) else m pid

/-- The Dashboard's stockMap (src/src/pages/Dashboard.tsx lines 42-50):
a Map (absent key = undefined) built by iterating the stock rows. -/
def buildStockMap (rows : List StockRow) : Nat → Option Int :=
  rows.foldl stockMapStep (fun _ => none)

/-- The Dashboard's low-stock counter (src/src/pages/Dashboard.tsx lines
52-61): count the products whose total stock (stockMap value or 0) is at
most their reorder_level. -/
def lowStockCount (products : List ProductRow) (rows : List StockRow) : Nat :=
  products.foldl
    (fun n p => if (buildStockMap rows p.id).getD 0 ≤ p.reorder_level then n + 1 else n) 0

/-- The low-stock rule as the spec words it: the sum of the product's
StockLevel quantities across all warehouses is at most its reorder_level.
Stated independently of the code's fold so the code can be compared to it. -/
def specLowStock (rows : List StockRow) (p : ProductRow) : Prop :=
  ((rows.filter (fun sl => sl.product_id = p.id)).map (fun sl => sl.quantity)).sum ≤ p.reorder_level

instance (rows : List StockRow) (p : ProductRow) : Decidable (specLowStock rows p) := by
  unfold specLowStock
  infer_instance

/-- One invocation of a validator, used to talk about sequences of
validations against the store. Timestamps do not influence the store, so the
step fixes them to 0. -/
inductive ValidateStep where
  | receipt (r : ReceiptDoc)
  | delivery (d : DeliveryDoc)
  | transfer (t : TransferDoc)
  | adjustment (a : AdjustmentDoc)

/-- The store after one validator invocation. -/
def stepStore (s : Store) : ValidateStep → Store
  | ValidateStep.receipt r => (handleValidateReceipt r s 0).1
  | ValidateStep.delivery d => (handleValidateDelivery d s 0).1
  | ValidateStep.transfer t => (handleValidateTransfer t s 0).1
  | ValidateStep.adjustment a => (handleValidateAdjustment a s 0).1

/-- The store after a sequence of validator invocations. -/
def runSteps (s : Store) (steps : List ValidateStep) : Store :=
  steps.foldl stepStore s

/-- Every stock row holds a nonnegative quantity. -/
def StockNonneg (s : Store) : Prop :=
  ∀ p w q, s.stock p w = some q → 0 ≤ q

/-- Quantity-sign conditions under which a validation step cannot drive a
balance negative. Receipt and delivery line quantities are kept positive by
the creation forms (they filter quantity > 0) and the transfer form enforces
min 1; nothing in the application constrains an adjustment's
counted_quantity. -/
def StepSafe : ValidateStep → Prop
  | ValidateStep.receipt r => ∀ l ∈ r.lines, 0 ≤ l.quantity
  | ValidateStep.delivery _ => True
  | ValidateStep.transfer t => 0 ≤ t.quantity
  | ValidateStep.adjustment a => 0 ≤ a.counted

/-- Sum of the signed quantities of the movements of one
(product, warehouse) pair. -/
def movementSum (moves : List Movement) (p w : Nat) : Int :=
  ((moves.filter (fun m => m.product = p ∧ m.warehouse = w)).map (fun m => m.quantity)).sum

/-- Ledger-balance consistency: for every pair, the signed movement sum
equals the pair's balance (0 for an absent row). -/
def LedgerConsistent (s : Store) : Prop :=
  ∀ p w, movementSum s.movements p w = qtyOrZero s p w

/-- Total quantity a list of lines carries for one product. -/
def linesSum (lines : List Line) (p : Nat) : Int :=
  ((lines.filter (fun l => l.product = p)).map (fun l => l.quantity)).sum
/-- Side condition under which a validation step keeps the ledger consistent
with the balances: an adjustment must still see the balance its
system_quantity and difference were computed from (as they are when it is
validated with no posting in between); the other kinds need nothing. -/
def stepOk (s : Store) : ValidateStep → Prop
  | ValidateStep.adjustment a =>
      a.system = qtyOrZero s a.product a.warehouse ∧ a.difference = a.counted - a.system
  | _ => True
/-- A run of validation steps in which every adjustment is validated while
the pair's balance still equals its recorded system_quantity. -/
inductive ConsistentRun : Store → List ValidateStep → Store → Prop where
  | nil (s : Store) : ConsistentRun s [] s
  | cons (s : Store) (st : ValidateStep) (rest : List ValidateStep) (s2 : Store) :
      stepOk s st → ConsistentRun (stepStore s st) rest s2 → ConsistentRun s (st :: rest) s2
/-! ### Concrete fixtures -/

/-- Fixture for the delivery-atomicity check: product 1 has balance 10 and
product 2 has balance 3 in warehouse 1, and the ledger is empty. -/
def twoProductStore : Store :=
  { stock := setQty (setQty (fun _ _ => none) 1 1 10) 2 1 3
    movements := [] }

/-- A draft delivery of 5 units of product 1 (sufficient) followed by 5
units of product 2 (insufficient) from warehouse 1. -/
def mixedDelivery : DeliveryDoc :=
  { id := 5
    warehouse := 1
    status := DocStatus.draft
    validatedAt := none
    lines := [⟨1, 5⟩, ⟨2, 5⟩] }

/-- A receipt of 10 units of product 1 into warehouse 1 that has already
been validated: its status is done and the store already carries its posted
balance and movement. -/
def doneReceipt : ReceiptDoc :=
  { id := 7
    warehouse := 1
    status := DocStatus.done
    validatedAt := some 0
    lines := [⟨1, 10⟩] }

/-- The store as it stands after doneReceipt was posted once. -/
def postedStore : Store :=
  { stock := setQty (fun _ _ => none) 1 1 10
    movements := [⟨1, 1, MovementType.receipt, 10, 7⟩] }

/-- An adjustment to count 10 of product 1 in warehouse 1, created while the
store was empty: system_quantity 0, difference 10. -/
def staleAdjustment : AdjustmentDoc := createAdjustment 1 1 1 10 emptyStore

/-- A one-line receipt of 5 units of product 1 into warehouse 1, validated
between staleAdjustment's creation and its validation. -/
def interveningReceipt : ReceiptDoc :=
  { id := 2
    warehouse := 1
    status := DocStatus.draft
    validatedAt := none
    lines := [⟨1, 5⟩] }

/-- The store after validating interveningReceipt and then staleAdjustment,
starting from the empty store. -/
def staleRunResult : Store :=
  runSteps emptyStore
    [ValidateStep.receipt interveningReceipt, ValidateStep.adjustment staleAdjustment]
/-- A one-line draft receipt used as the C3 witness input. -/
def oneLineReceipt : ReceiptDoc :=
  { id := 3
    warehouse := 1
    status := DocStatus.draft
    validatedAt := none
    lines := [⟨1, 4⟩] }

/-- A draft transfer of 6 units of product 1 from warehouse 1 to warehouse
2, used as the C4 witness input. -/
def transferFixture : TransferDoc :=
  { id := 11
    product := 1
    source := 1
    destination := 2
    quantity := 6
    status := DocStatus.draft
    validatedAt := none }

/-- A store holding exactly 6 units of product 1 in warehouse 1. -/
def transferStore : Store :=
  { stock := setQty (fun _ _ => none) 1 1 6
    movements := [] }

/-! ### Lemmas and theorems -/

theorem foldl_add_quantity :
    ∀ (l : List StockRow) (acc : Int),
      l.foldl (fun sum sl => sum + sl.quantity) acc = acc + (l.map (fun sl => sl.quantity)).sum := by
  intro l
  induction l with
  | nil => intro acc; simp
  | cons sl rest ih =>
    intro acc
    simp only [List.foldl_cons, List.map_cons, List.sum_cons]
    rw [ih]
    ring

theorem getProductStock_eq (rows : List StockRow) (pid : Nat) :
    getProductStock rows pid =
      ((rows.filter (fun sl => sl.product_id = pid)).map (fun sl => sl.quantity)).sum := by
  unfold getProductStock
  rw [foldl_add_quantity]
  ring

theorem stockMapStep_fold_getD :
    ∀ (rows : List StockRow) (m : Nat → Option Int) (pid : Nat),
      ((rows.foldl stockMapStep m) pid).getD 0 =
        (m pid).getD 0 +
          ((rows.filter (fun sl => sl.product_id = pid)).map (fun sl => sl.quantity)).sum := by
  intro rows
  induction rows with
  | nil => intro m pid; simp
  | cons sl rest ih =>
    intro m pid
    simp only [List.foldl_cons]
    rw [ih]
    by_cases hp : sl.product_id = pid
    · subst hp
      simp [stockMapStep, List.filter_cons]
      ring
    · have hp2 : pid ≠ sl.product_id := fun hh => hp hh.symm
      simp [stockMapStep, List.filter_cons, hp, hp2]

theorem lowStockCount_aux (rows : List StockRow) :
    ∀ (products : List ProductRow) (n : Nat),
      products.foldl
        (fun n p => if (buildStockMap rows p.id).getD 0 ≤ p.reorder_level then n + 1 else n) n =
        n + (products.filter (fun p => decide (specLowStock rows p))).length := by
  intro products
  induction products with
  | nil => intro n; simp
  | cons p rest ih =>
    intro n
    simp only [List.foldl_cons]
    rw [ih]
    have hiff : ((buildStockMap rows p.id).getD 0 ≤ p.reorder_level) ↔ specLowStock rows p := by
      unfold buildStockMap specLowStock
      rw [stockMapStep_fold_getD]
      simp
    by_cases hp : specLowStock rows p
    · rw [if_pos (hiff.mpr hp)]
      simp [List.filter_cons, hp]
      omega
    · rw [if_neg (fun hh => hp (hiff.mp hh))]
      simp [List.filter_cons, hp]

theorem linesSum_cons (l : Line) (rest : List Line) (p : Nat) :
    linesSum (l :: rest) p = (if l.product = p then l.quantity else 0) + linesSum rest p := by
  unfold linesSum
  by_cases hp : l.product = p <;> simp [List.filter_cons, hp]

theorem applyReceiptLine_movements (wh rid : Nat) (s : Store) (l : Line) :
    (applyReceiptLine wh rid s l).movements =
      s.movements ++ [⟨l.product, wh, MovementType.receipt, l.quantity, rid⟩] := rfl

theorem foldReceipt_movements (wh rid : Nat) :
    ∀ (lines : List Line) (s : Store),
      (lines.foldl (applyReceiptLine wh rid) s).movements =
        s.movements ++
          lines.map (fun l => ⟨l.product, wh, MovementType.receipt, l.quantity, rid⟩) := by
  intro lines
  induction lines with
  | nil => intro s; simp
  | cons l rest ih =>
    intro s
    simp only [List.foldl_cons, List.map_cons]
    rw [ih, applyReceiptLine_movements, List.append_assoc]
    rfl

theorem applyReceiptLine_qty_wh (wh rid : Nat) (s : Store) (l : Line) (p : Nat) :
    qtyOrZero (applyReceiptLine wh rid s l) p wh =
      qtyOrZero s p wh + (if l.product = p then l.quantity else 0) := by
  unfold applyReceiptLine qtyOrZero setQty
  by_cases hp : p = l.product
  · subst hp
    cases h : s.stock l.product wh <;> simp [h]
  · have hp2 : l.product ≠ p := fun hh => hp hh.symm
    cases h : s.stock l.product wh <;> simp [h, hp, hp2]

theorem foldReceipt_qty_wh (wh rid : Nat) :
    ∀ (lines : List Line) (s : Store) (p : Nat),
      qtyOrZero (lines.foldl (applyReceiptLine wh rid) s) p wh =
        qtyOrZero s p wh + linesSum lines p := by
  intro lines
  induction lines with
  | nil => intro s p; simp [linesSum]
  | cons l rest ih =>
    intro s p
    simp only [List.foldl_cons]
    rw [ih, applyReceiptLine_qty_wh, linesSum_cons]
    ring

theorem applyReceiptLine_stock_other (wh rid : Nat) (s : Store) (l : Line) (p w : Nat)
    (hw : w ≠ wh) : (applyReceiptLine wh rid s l).stock p w = s.stock p w := by
  unfold applyReceiptLine setQty
  cases h : s.stock l.product wh <;> simp [h, hw]

theorem foldReceipt_stock_other (wh rid : Nat) :
    ∀ (lines : List Line) (s : Store) (p w : Nat), w ≠ wh →
      (lines.foldl (applyReceiptLine wh rid) s).stock p w = s.stock p w := by
  intro lines
  induction lines with
  | nil => intro s p w _; rfl
  | cons l rest ih =>
    intro s p w hw
    simp only [List.foldl_cons]
    rw [ih _ p w hw, applyReceiptLine_stock_other wh rid s l p w hw]

theorem applyReceiptLine_defined (wh rid : Nat) (s : Store) (l : Line) (p w : Nat)
    (h : s.stock p w ≠ none) : (applyReceiptLine wh rid s l).stock p w ≠ none := by
  unfold applyReceiptLine setQty
  cases hm : s.stock l.product wh <;> simp only [hm] <;> split <;> simp_all

theorem applyReceiptLine_self (wh rid : Nat) (s : Store) (l : Line) :
    (applyReceiptLine wh rid s l).stock l.product wh ≠ none := by
  unfold applyReceiptLine setQty
  cases hm : s.stock l.product wh <;> simp [hm]

theorem foldReceipt_defined (wh rid : Nat) :
    ∀ (lines : List Line) (s : Store) (p w : Nat), s.stock p w ≠ none →
      (lines.foldl (applyReceiptLine wh rid) s).stock p w ≠ none := by
  intro lines
  induction lines with
  | nil => intro s p w h; exact h
  | cons l rest ih =>
    intro s p w h
    simp only [List.foldl_cons]
    exact ih _ p w (applyReceiptLine_defined wh rid s l p w h)

theorem foldReceipt_line_defined (wh rid : Nat) :
    ∀ (lines : List Line) (s : Store) (l : Line), l ∈ lines →
      (lines.foldl (applyReceiptLine wh rid) s).stock l.product wh ≠ none := by
  intro lines
  induction lines with
  | nil => intro s l hl; cases hl
  | cons l0 rest ih =>
    intro s l hl
    simp only [List.foldl_cons]
    rcases List.mem_cons.mp hl with h | h
    · subst h
      exact foldReceipt_defined wh rid rest _ l.product wh (applyReceiptLine_self wh rid s l)
    · exact ih _ l h

theorem nonneg_setQty (f : Nat → Nat → Option Int) (p w : Nat) (q : Int)
    (hf : ∀ p2 w2 q2, f p2 w2 = some q2 → 0 ≤ q2) (hq : 0 ≤ q) :
    ∀ p2 w2 q2, setQty f p w q p2 w2 = some q2 → 0 ≤ q2 := by
  intro p2 w2 q2 h
  unfold setQty at h
  split at h
  · injection h with h2
    exact h2 ▸ hq
  · exact hf p2 w2 q2 h

theorem nonneg_applyReceiptLine (wh rid : Nat) (s : Store) (l : Line)
    (hs : StockNonneg s) (hl : 0 ≤ l.quantity) :
    StockNonneg (applyReceiptLine wh rid s l) := by
  unfold applyReceiptLine
  cases hm : s.stock l.product wh with
  | some q =>
    simp only [hm]
    exact nonneg_setQty s.stock l.product wh (q + l.quantity) hs
      (by have := hs l.product wh q hm; omega)
  | none =>
    simp only [hm]
    exact nonneg_setQty s.stock l.product wh l.quantity hs hl

theorem nonneg_foldReceipt (wh rid : Nat) :
    ∀ (lines : List Line) (s : Store), StockNonneg s → (∀ l ∈ lines, 0 ≤ l.quantity) →
      StockNonneg (lines.foldl (applyReceiptLine wh rid) s) := by
  intro lines
  induction lines with
  | nil => intro s hs _; exact hs
  | cons l rest ih =>
    intro s hs hl
    simp only [List.foldl_cons]
    exact ih (applyReceiptLine wh rid s l)
      (nonneg_applyReceiptLine wh rid s l hs (hl l (List.mem_cons_self l rest)))
      (fun x hx => hl x (List.mem_cons_of_mem l hx))

theorem nonneg_runDeliveryLines (wh rid : Nat) :
    ∀ (lines : List Line) (s : Store), StockNonneg s →
      StockNonneg (runDeliveryLines wh rid s lines).1 := by
  intro lines
  induction lines with
  | nil => intro s hs; exact hs
  | cons l rest ih =>
    intro s hs
    unfold runDeliveryLines
    cases hm : s.stock l.product wh with
    | none => exact hs
    | some q =>
      by_cases hlt : q < l.quantity
      · simp only [if_pos hlt]
        exact hs
      · simp only [if_neg hlt]
        exact ih _ (nonneg_setQty s.stock l.product wh (q - l.quantity) hs (by omega))

theorem nonneg_transfer (t : TransferDoc) (s : Store) (now : Nat)
    (hs : StockNonneg s) (ht : 0 ≤ t.quantity) :
    StockNonneg (handleValidateTransfer t s now).1 := by
  unfold handleValidateTransfer
  cases hm : s.stock t.product t.source with
  | none => exact hs
  | some q =>
    by_cases hlt : q < t.quantity
    · simp only [if_pos hlt]
      exact hs
    · simp only [if_neg hlt]
      have h1 : ∀ p2 w2 q2,
          setQty s.stock t.product t.source (q - t.quantity) p2 w2 = some q2 → 0 ≤ q2 :=
        nonneg_setQty s.stock t.product t.source (q - t.quantity) hs (by omega)
      cases hd : setQty s.stock t.product t.source (q - t.quantity) t.product t.destination with
      | none =>
        simp only [hd]
        exact nonneg_setQty _ t.product t.destination t.quantity h1 ht
      | some qd =>
        simp only [hd]
        have hqd : 0 ≤ qd := h1 t.product t.destination qd hd
        exact nonneg_setQty _ t.product t.destination (qd + t.quantity) h1 (by omega)

theorem nonneg_adjustment (a : AdjustmentDoc) (s : Store) (now : Nat)
    (hs : StockNonneg s) (hc : 0 ≤ a.counted) :
    StockNonneg (handleValidateAdjustment a s now).1 := by
  unfold handleValidateAdjustment
  cases hm : s.stock a.product a.warehouse with
  | some q =>
    simp only [hm]
    exact nonneg_setQty s.stock a.product a.warehouse a.counted hs hc
  | none =>
    simp only [hm]
    exact nonneg_setQty s.stock a.product a.warehouse a.counted hs hc

theorem handleValidateReceipt_fst (r : ReceiptDoc) (s : Store) (now : Nat) :
    (handleValidateReceipt r s now).1 =
      if r.lines.isEmpty then s else r.lines.foldl (applyReceiptLine r.warehouse r.id) s := by
  unfold handleValidateReceipt
  cases h : r.lines.isEmpty <;> simp [h]

theorem handleValidateDelivery_fst (d : DeliveryDoc) (s : Store) (now : Nat) :
    (handleValidateDelivery d s now).1 =
      if d.lines.isEmpty then s else (runDeliveryLines d.warehouse d.id s d.lines).1 := by
  unfold handleValidateDelivery
  cases h : d.lines.isEmpty
  · cases hres : (runDeliveryLines d.warehouse d.id s d.lines).2 <;> simp [h, hres]
  · simp [h]

theorem nonneg_receipt (r : ReceiptDoc) (s : Store) (now : Nat) (hs : StockNonneg s)
    (hl : ∀ l ∈ r.lines, 0 ≤ l.quantity) :
    StockNonneg (handleValidateReceipt r s now).1 := by
  rw [handleValidateReceipt_fst]
  cases h : r.lines.isEmpty
  · simp only [Bool.false_eq_true, if_false]
    exact nonneg_foldReceipt r.warehouse r.id r.lines s hs hl
  · simp only [if_true]
    exact hs

theorem nonneg_delivery (d : DeliveryDoc) (s : Store) (now : Nat) (hs : StockNonneg s) :
    StockNonneg (handleValidateDelivery d s now).1 := by
  rw [handleValidateDelivery_fst]
  cases h : d.lines.isEmpty
  · simp only [Bool.false_eq_true, if_false]
    exact nonneg_runDeliveryLines d.warehouse d.id d.lines s hs
  · simp only [if_true]
    exact hs

theorem nonneg_step (s : Store) (st : ValidateStep) (hs : StockNonneg s)
    (hst : StepSafe st) : StockNonneg (stepStore s st) := by
  cases st with
  | receipt r => exact nonneg_receipt r s 0 hs hst
  | delivery d => exact nonneg_delivery d s 0 hs
  | transfer t => exact nonneg_transfer t s 0 hs hst
  | adjustment a => exact nonneg_adjustment a s 0 hs hst

theorem movementSum_append_one (ms : List Movement) (m : Movement) (p w : Nat) :
    movementSum (ms ++ [m]) p w =
      movementSum ms p w + (if m.product = p ∧ m.warehouse = w then m.quantity else 0) := by
  unfold movementSum
  rw [List.filter_append, List.map_append, List.sum_append]
  by_cases h : m.product = p ∧ m.warehouse = w
  · simp [List.filter_cons, h]
  · simp [List.filter_cons, h]

/-- Posting one movement of d at (p0, w0) while moving the pair's balance to
newq = old + d preserves ledger-balance consistency. -/
theorem ledger_post_one (s : Store) (p0 w0 : Nat) (mt : MovementType) (d newq : Int)
    (rid : Nat) (hs : LedgerConsistent s) (hnew : newq = qtyOrZero s p0 w0 + d) :
    LedgerConsistent
      { stock := setQty s.stock p0 w0 newq
        movements := s.movements ++ [⟨p0, w0, mt, d, rid⟩] } := by
  intro p w
  rw [movementSum_append_one]
  show movementSum s.movements p w + _ = (setQty s.stock p0 w0 newq p w).getD 0
  rw [hs p w]
  by_cases hp : p = p0
  · subst hp
    by_cases hw : w = w0
    · subst hw
      rw [if_pos ⟨rfl, rfl⟩, hnew]
      simp [setQty, qtyOrZero]
    · rw [if_neg (fun hc => hw hc.2.symm)]
      simp [setQty, qtyOrZero, hw]
  · rw [if_neg (fun hc => hp hc.1.symm)]
    simp [setQty, qtyOrZero, hp]

/-- The receipt loop body written as a single post of +quantity. -/
theorem applyReceiptLine_as_post (wh rid : Nat) (s : Store) (l : Line) :
    applyReceiptLine wh rid s l =
      { stock := setQty s.stock l.product wh (qtyOrZero s l.product wh + l.quantity)
        movements := s.movements ++ [⟨l.product, wh, MovementType.receipt, l.quantity, rid⟩] } := by
  unfold applyReceiptLine qtyOrZero
  cases h : s.stock l.product wh <;> simp [h]

theorem ledger_applyReceiptLine (wh rid : Nat) (s : Store) (l : Line)
    (hs : LedgerConsistent s) : LedgerConsistent (applyReceiptLine wh rid s l) := by
  rw [applyReceiptLine_as_post]
  exact ledger_post_one s l.product wh MovementType.receipt l.quantity
    (qtyOrZero s l.product wh + l.quantity) rid hs rfl

theorem ledger_foldReceipt (wh rid : Nat) :
    ∀ (lines : List Line) (s : Store), LedgerConsistent s →
      LedgerConsistent (lines.foldl (applyReceiptLine wh rid) s) := by
  intro lines
  induction lines with
  | nil => intro s hs; exact hs
  | cons l rest ih =>
    intro s hs
    simp only [List.foldl_cons]
    exact ih (applyReceiptLine wh rid s l) (ledger_applyReceiptLine wh rid s l hs)

theorem ledger_receipt (r : ReceiptDoc) (s : Store) (now : Nat)
    (hs : LedgerConsistent s) : LedgerConsistent (handleValidateReceipt r s now).1 := by
  rw [handleValidateReceipt_fst]
  cases h : r.lines.isEmpty
  · simp only [Bool.false_eq_true, if_false]
    exact ledger_foldReceipt r.warehouse r.id r.lines s hs
  · simp only [if_true]
    exact hs

theorem ledger_runDeliveryLines (wh rid : Nat) :
    ∀ (lines : List Line) (s : Store), LedgerConsistent s →
      LedgerConsistent (runDeliveryLines wh rid s lines).1 := by
  intro lines
  induction lines with
  | nil => intro s hs; exact hs
  | cons l rest ih =>
    intro s hs
    unfold runDeliveryLines
    cases hm : s.stock l.product wh with
    | none => exact hs
    | some q =>
      by_cases hlt : q < l.quantity
      · simp only [if_pos hlt]
        exact hs
      · simp only [if_neg hlt]
        apply ih
        have hqz : qtyOrZero s l.product wh = q := by simp [qtyOrZero, hm]
        have hq2 : q - l.quantity = qtyOrZero s l.product wh + (-l.quantity) := by
          rw [hqz]
          ring
        rw [hq2]
        exact ledger_post_one s l.product wh MovementType.delivery (-l.quantity)
          (qtyOrZero s l.product wh + (-l.quantity)) rid hs rfl

theorem ledger_delivery (d : DeliveryDoc) (s : Store) (now : Nat)
    (hs : LedgerConsistent s) : LedgerConsistent (handleValidateDelivery d s now).1 := by
  rw [handleValidateDelivery_fst]
  cases h : d.lines.isEmpty
  · simp only [Bool.false_eq_true, if_false]
    exact ledger_runDeliveryLines d.warehouse d.id d.lines s hs
  · simp only [if_true]
    exact hs

theorem ledger_transfer (t : TransferDoc) (s : Store) (now : Nat)
    (hs : LedgerConsistent s) : LedgerConsistent (handleValidateTransfer t s now).1 := by
  unfold handleValidateTransfer
  cases hm : s.stock t.product t.source with
  | none => exact hs
  | some q =>
    by_cases hlt : q < t.quantity
    · simp only [if_pos hlt]
      exact hs
    · simp only [if_neg hlt]
      have hqz : qtyOrZero s t.product t.source = q := by simp [qtyOrZero, hm]
      have hmid : LedgerConsistent
          { stock := setQty s.stock t.product t.source (q - t.quantity)
            movements := s.movements ++
              [⟨t.product, t.source, MovementType.transfer_out, -t.quantity, t.id⟩] } :=
        ledger_post_one s t.product t.source MovementType.transfer_out (-t.quantity)
          (q - t.quantity) t.id hs (by rw [hqz]; ring)
      cases hd : setQty s.stock t.product t.source (q - t.quantity) t.product t.destination with
      | none =>
        simp only [hd]
        have hmv : s.movements ++
            [⟨t.product, t.source, MovementType.transfer_out, -t.quantity, t.id⟩,
             ⟨t.product, t.destination, MovementType.transfer_in, t.quantity, t.id⟩] =
            (s.movements ++
              [⟨t.product, t.source, MovementType.transfer_out, -t.quantity, t.id⟩]) ++
            [⟨t.product, t.destination, MovementType.transfer_in, t.quantity, t.id⟩] := by
          simp
        rw [hmv]
        exact ledger_post_one _ t.product t.destination MovementType.transfer_in t.quantity
          t.quantity t.id hmid (by simp [qtyOrZero, hd])
      | some qd =>
        simp only [hd]
        have hmv : s.movements ++
            [⟨t.product, t.source, MovementType.transfer_out, -t.quantity, t.id⟩,
             ⟨t.product, t.destination, MovementType.transfer_in, t.quantity, t.id⟩] =
            (s.movements ++
              [⟨t.product, t.source, MovementType.transfer_out, -t.quantity, t.id⟩]) ++
            [⟨t.product, t.destination, MovementType.transfer_in, t.quantity, t.id⟩] := by
          simp
        rw [hmv]
        exact ledger_post_one _ t.product t.destination MovementType.transfer_in t.quantity
          (qd + t.quantity) t.id hmid (by simp [qtyOrZero, hd])

theorem ledger_adjustment (a : AdjustmentDoc) (s : Store) (now : Nat)
    (hs : LedgerConsistent s) (hsys : a.system = qtyOrZero s a.product a.warehouse)
    (hdiff : a.difference = a.counted - a.system) :
    LedgerConsistent (handleValidateAdjustment a s now).1 := by
  unfold handleValidateAdjustment
  cases hm : s.stock a.product a.warehouse <;>
    · simp only [hm]
      exact ledger_post_one s a.product a.warehouse MovementType.adjustment a.difference
        a.counted a.id hs (by rw [hdiff, hsys]; ring)

theorem ledger_step (s : Store) (st : ValidateStep) (hs : LedgerConsistent s)
    (hok : stepOk s st) : LedgerConsistent (stepStore s st) := by
  cases st with
  | receipt r => exact ledger_receipt r s 0 hs
  | delivery d => exact ledger_delivery d s 0 hs
  | transfer t => exact ledger_transfer t s 0 hs
  | adjustment a => exact ledger_adjustment a s 0 hs hok.1 hok.2

/-! ### Theorems -/

/-- C1: validating a delivery whose second line lacks stock reports failure
but does NOT leave the store unchanged: the first line's deduction (balance
10 to 5) and its delivery movement are already applied when the loop aborts.
The code applies each line's balance update and movement inside the same
loop iteration as that line's sufficiency check, so a failure on a later
line leaves every earlier line's effect in place. -/
theorem delivery_insufficient_stock_not_atomic :
    ((handleValidateDelivery mixedDelivery twoProductStore 0).2.2 = false) ∧
    qtyOrZero twoProductStore 1 1 = 10 ∧
    qtyOrZero (handleValidateDelivery mixedDelivery twoProductStore 0).1 1 1 = 5 ∧
    (handleValidateDelivery mixedDelivery twoProductStore 0).1.movements =
      [⟨1, 1, MovementType.delivery, -5, 5⟩] ∧
    (handleValidateDelivery mixedDelivery twoProductStore 0).2.1.status = DocStatus.draft := by
  decide

/-- C2: invoking handleValidateReceipt on a receipt whose status is already
done posts the whole document again: the handler never reads the status, so
the balance rises from 10 to 20, a second receipt movement is appended, and
success is reported. Only the UI hides the button for done documents. -/
theorem done_receipt_revalidation_double_posts :
    doneReceipt.status = DocStatus.done ∧
    ((handleValidateReceipt doneReceipt postedStore 0).2.2 = true) ∧
    qtyOrZero postedStore 1 1 = 10 ∧
    qtyOrZero (handleValidateReceipt doneReceipt postedStore 0).1 1 1 = 20 ∧
    (handleValidateReceipt doneReceipt postedStore 0).1.movements =
      [⟨1, 1, MovementType.receipt, 10, 7⟩, ⟨1, 1, MovementType.receipt, 10, 7⟩] := by
  decide

/-- C5: validating an adjustment created with counted quantity c at store s0
sets the pair's balance to exactly c (row created when absent) and appends
one adjustment movement whose quantity is c minus the system quantity the
pair had when the adjustment was created. -/
theorem adjustment_validation_posts (id p w : Nat) (c : Int) (s0 s1 : Store) (now : Nat) :
    ((handleValidateAdjustment (createAdjustment id p w c s0) s1 now).1.stock p w = some c) ∧
    ((handleValidateAdjustment (createAdjustment id p w c s0) s1 now).1.movements =
      s1.movements ++ [⟨p, w, MovementType.adjustment, c - qtyOrZero s0 p w, id⟩]) := by
  unfold handleValidateAdjustment createAdjustment qtyOrZero
  refine ⟨?A, ?B⟩
  case A => cases h : s1.stock p w <;> simp [h, setQty]
  case B => cases h : s1.stock p w <;> simp [h]

/-- C8: a receipt or delivery with an empty set of lines is rejected before
any write: the store is returned untouched, the document row is untouched
(so a draft stays draft), and the result is the failure toast. -/
theorem empty_lines_reject (r : ReceiptDoc) (d : DeliveryDoc) (s1 s2 : Store) (n1 n2 : Nat)
    (hr : r.lines = []) (hd : d.lines = []) :
    handleValidateReceipt r s1 n1 = (s1, r, false) ∧
    handleValidateDelivery d s2 n2 = (s2, d, false) := by
  refine ⟨?A, ?B⟩
  case A => simp [handleValidateReceipt, hr]
  case B => simp [handleValidateDelivery, hd]

/-- Witness for C8 at a concrete empty-lined receipt and delivery. -/
theorem empty_lines_reject_witness :
    handleValidateReceipt ⟨1, 1, DocStatus.draft, none, []⟩ emptyStore 0 =
      (emptyStore, ⟨1, 1, DocStatus.draft, none, []⟩, false) ∧
    handleValidateDelivery ⟨2, 1, DocStatus.draft, none, []⟩ emptyStore 0 =
      (emptyStore, ⟨2, 1, DocStatus.draft, none, []⟩, false) :=
  empty_lines_reject ⟨1, 1, DocStatus.draft, none, []⟩ ⟨2, 1, DocStatus.draft, none, []⟩
    emptyStore emptyStore 0 0 rfl rfl

/-- C3: validating a receipt with at least one line succeeds, marks the
receipt done with validated_at stamped, appends exactly one receipt movement
of +quantity per line (in line order), adds each line's quantity to the
(line.product, receipt.warehouse) balance — so each product's balance in the
receipt's warehouse grows by the total its lines carry, rows being created
when absent — and touches no other warehouse's rows. -/
theorem receipt_validation_posts (r : ReceiptDoc) (s : Store) (now : Nat)
    (h : r.lines ≠ []) :
    ((handleValidateReceipt r s now).2.2 = true) ∧
    ((handleValidateReceipt r s now).2.1.status = DocStatus.done) ∧
    ((handleValidateReceipt r s now).2.1.validatedAt = some now) ∧
    ((handleValidateReceipt r s now).1.movements =
      s.movements ++
        r.lines.map (fun l => ⟨l.product, r.warehouse, MovementType.receipt, l.quantity, r.id⟩)) ∧
    (∀ p, qtyOrZero (handleValidateReceipt r s now).1 p r.warehouse =
      qtyOrZero s p r.warehouse + linesSum r.lines p) ∧
    (∀ p w, w ≠ r.warehouse → (handleValidateReceipt r s now).1.stock p w = s.stock p w) ∧
    (∀ l ∈ r.lines, (handleValidateReceipt r s now).1.stock l.product r.warehouse ≠ none) := by
  have hne : r.lines.isEmpty = false := by
    cases hl : r.lines with
    | nil => exact absurd hl h
    | cons a as => simp
  simp only [handleValidateReceipt, hne, Bool.false_eq_true, if_false]
  exact ⟨trivial, trivial, trivial,
    foldReceipt_movements r.warehouse r.id r.lines s,
    fun p => foldReceipt_qty_wh r.warehouse r.id r.lines s p,
    fun p w hw => foldReceipt_stock_other r.warehouse r.id r.lines s p w hw,
    fun l hl => foldReceipt_line_defined r.warehouse r.id r.lines s l hl⟩

/-- Witness for C3 on a concrete one-line receipt against the empty store. -/
theorem receipt_validation_posts_witness :
    ((handleValidateReceipt oneLineReceipt emptyStore 9).2.2 = true) ∧
    ((handleValidateReceipt oneLineReceipt emptyStore 9).2.1.status = DocStatus.done) ∧
    ((handleValidateReceipt oneLineReceipt emptyStore 9).2.1.validatedAt = some 9) ∧
    (qtyOrZero (handleValidateReceipt oneLineReceipt emptyStore 9).1 1 1 =
      qtyOrZero emptyStore 1 1 + linesSum oneLineReceipt.lines 1) := by
  have h := receipt_validation_posts oneLineReceipt emptyStore 9 (by decide)
  exact ⟨h.1, h.2.1, h.2.2.1, h.2.2.2.2.1 1⟩

/-- C4: validating a transfer whose source row holds at least the transfer
quantity succeeds, appends exactly the transfer_out (-quantity at source)
and transfer_in (+quantity at destination) pair — whose signed quantities
sum to zero — decreases the source balance by exactly the quantity and
increases the destination balance by exactly the quantity, creating the
destination row when it was absent. The source and destination warehouses
are distinct, as transfer creation enforces. -/
theorem transfer_validation_conserves (t : TransferDoc) (s : Store) (now : Nat) (q : Int)
    (hq : s.stock t.product t.source = some q) (hge : t.quantity ≤ q)
    (hne : t.source ≠ t.destination) :
    ((handleValidateTransfer t s now).2.2 = true) ∧
    ((handleValidateTransfer t s now).1.movements =
      s.movements ++
        [⟨t.product, t.source, MovementType.transfer_out, -t.quantity, t.id⟩,
         ⟨t.product, t.destination, MovementType.transfer_in, t.quantity, t.id⟩]) ∧
    ((((handleValidateTransfer t s now).1.movements.drop s.movements.length).map
        (fun m => m.quantity)).sum = 0) ∧
    (qtyOrZero (handleValidateTransfer t s now).1 t.product t.source =
      qtyOrZero s t.product t.source - t.quantity) ∧
    (qtyOrZero (handleValidateTransfer t s now).1 t.product t.destination =
      qtyOrZero s t.product t.destination + t.quantity) ∧
    ((handleValidateTransfer t s now).1.stock t.product t.destination ≠ none) := by
  have hlt : ¬ q < t.quantity := not_lt.mpr hge
  have hdsne : t.destination ≠ t.source := fun hh => hne hh.symm
  simp only [handleValidateTransfer, hq, hlt, if_false]
  have hstock1 : setQty s.stock t.product t.source (q - t.quantity) t.product t.destination =
      s.stock t.product t.destination := by
    simp [setQty, hdsne]
  rw [hstock1]
  cases hd : s.stock t.product t.destination with
  | none =>
    refine ⟨trivial, trivial, ?_, ?_, ?_, ?_⟩
    · simp [List.drop_left]
    · simp [qtyOrZero, setQty, hne, hq]
    · simp [qtyOrZero, setQty, hd]
    · simp [setQty]
  | some qd =>
    refine ⟨trivial, trivial, ?_, ?_, ?_, ?_⟩
    · simp [List.drop_left]
    · simp [qtyOrZero, setQty, hne, hq]
    · simp [qtyOrZero, setQty, hd]
      try ring
    · simp [setQty]

/-- Witness for C4 on a concrete transfer with sufficient source stock. -/
theorem transfer_validation_conserves_witness :
    ((handleValidateTransfer transferFixture transferStore 0).2.2 = true) ∧
    ((handleValidateTransfer transferFixture transferStore 0).1.movements =
      transferStore.movements ++
        [⟨1, 1, MovementType.transfer_out, -6, 11⟩,
         ⟨1, 2, MovementType.transfer_in, 6, 11⟩]) ∧
    ((((handleValidateTransfer transferFixture transferStore 0).1.movements.drop
        transferStore.movements.length).map (fun m => m.quantity)).sum = 0) ∧
    (qtyOrZero (handleValidateTransfer transferFixture transferStore 0).1 1 1 =
      qtyOrZero transferStore 1 1 - 6) ∧
    (qtyOrZero (handleValidateTransfer transferFixture transferStore 0).1 1 2 =
      qtyOrZero transferStore 1 2 + 6) ∧
    ((handleValidateTransfer transferFixture transferStore 0).1.stock 1 2 ≠ none) :=
  transfer_validation_conserves transferFixture transferStore 0 6 rfl (by decide) (by decide)

/-- C9: both places that flag or count low-stock products apply the same
rule: a product is low-stock exactly when the sum of its StockLevel
quantities across all warehouses is at most its reorder_level. The Products
page's per-row flag decides precisely that rule, and the Dashboard's
low-stock counter counts precisely the products satisfying it. -/
theorem low_stock_rule :
    (∀ (rows : List StockRow) (p : ProductRow),
      isLowStock rows p = true ↔ specLowStock rows p) ∧
    (∀ (products : List ProductRow) (rows : List StockRow),
      lowStockCount products rows =
        (products.filter (fun p => decide (specLowStock rows p))).length) := by
  constructor
  · intro rows p
    unfold isLowStock specLowStock
    rw [getProductStock_eq]
    simp
  · intro products rows
    unfold lowStockCount
    rw [lowStockCount_aux]
    simp

/-- C6 counterexample: the claim that no validation sequence ever drives a
StockLevel negative is false. Starting from the empty store (all balances
nonnegative), validating an adjustment created with counted_quantity -5 —
which the adjustment form accepts, since nothing constrains the sign of the
counted quantity — sets the (1,1) balance to -5. -/
theorem negative_adjustment_breaks_nonneg :
    StockNonneg emptyStore ∧
    (runSteps emptyStore
        [ValidateStep.adjustment (createAdjustment 1 1 1 (-5) emptyStore)]).stock 1 1 =
      some (-5) ∧
    ¬ StockNonneg (runSteps emptyStore
        [ValidateStep.adjustment (createAdjustment 1 1 1 (-5) emptyStore)]) := by
  refine ⟨(fun _ _ _ h => nomatch h), ?_, ?_⟩
  · decide
  · intro h
    exact absurd (h 1 1 (-5) (by decide)) (by decide)

/-- C6 amended: provided every receipt line quantity and every transfer
quantity is nonnegative (the creation forms enforce this) and every
adjustment's counted_quantity is nonnegative (which nothing in the
application enforces), a sequence of validation invocations started from a
store with no negative balances never makes any StockLevel quantity
negative. Deliveries need no side condition: the per-line sufficiency check
alone keeps the deducted row nonnegative. -/
theorem stock_nonneg_of_safe_steps :
    ∀ (steps : List ValidateStep) (s : Store), StockNonneg s →
      (∀ st ∈ steps, StepSafe st) → StockNonneg (runSteps s steps) := by
  intro steps
  induction steps with
  | nil => intro s hs _; exact hs
  | cons st rest ih =>
    intro s hs hsteps
    simp only [runSteps, List.foldl_cons]
    exact ih (stepStore s st) (nonneg_step s st hs (hsteps st (List.mem_cons_self st rest)))
      (fun x hx => hsteps x (List.mem_cons_of_mem st hx))

/-- Witness for the amended C6 on a concrete safe one-step run. -/
theorem stock_nonneg_of_safe_steps_witness :
    StockNonneg (runSteps emptyStore [ValidateStep.receipt oneLineReceipt]) :=
  stock_nonneg_of_safe_steps [ValidateStep.receipt oneLineReceipt] emptyStore
    (fun _ _ _ h => nomatch h)
    (by
      intro st hst
      rw [List.mem_singleton] at hst
      subst hst
      intro l hl
      have hl2 : l = ⟨1, 4⟩ := by simpa [oneLineReceipt] using hl
      subst hl2
      decide)

/-- C7 counterexample: the sum-of-movements-equals-balance invariant does
not survive every sequence of successful sequential validations from the
empty store. Validate a receipt of +5 (both validations below succeed), then
validate an adjustment that was created earlier, when the balance was still
0, with counted 10: the adjustment sets the balance to 10 but posts its
stored difference of +10, so the movements of pair (1,1) sum to 15 while the
balance is 10. -/
theorem stale_adjustment_breaks_ledger :
    ((handleValidateReceipt interveningReceipt emptyStore 0).2.2 = true) ∧
    ((handleValidateAdjustment staleAdjustment
        (stepStore emptyStore (ValidateStep.receipt interveningReceipt)) 0).2.2 = true) ∧
    movementSum staleRunResult.movements 1 1 = 15 ∧
    qtyOrZero staleRunResult 1 1 = 10 ∧
    ¬ LedgerConsistent staleRunResult := by
  refine ⟨?_, ?_, ?_, ?_, fun h => absurd (h 1 1) (by decide)⟩
  · decide
  · decide
  · decide
  · decide

/-- C7 amended: starting from the store with no movements and zero balances,
after any sequence of validations in which every adjustment is validated
while the pair's balance still equals the adjustment's recorded
system_quantity (and its difference column is counted minus system, as
creation computes it), the signed movement sum of every (product, warehouse)
pair equals that pair's balance. -/
theorem ledger_sum_matches_balance (steps : List ValidateStep) (s2 : Store)
    (hrun : ConsistentRun emptyStore steps s2) : LedgerConsistent s2 := by
  have hstart : LedgerConsistent emptyStore := fun p w => rfl
  revert hrun
  generalize emptyStore = s0 at hstart
  intro hrun
  induction hrun with
  | nil s => exact hstart
  | cons s st rest s2 hok _ ih => exact ih (ledger_step s st hstart hok)

/-- Witness for the amended C7 on a concrete one-step run. -/
theorem ledger_sum_matches_balance_witness :
    LedgerConsistent (stepStore emptyStore (ValidateStep.receipt interveningReceipt)) :=
  ledger_sum_matches_balance [ValidateStep.receipt interveningReceipt]
    (stepStore emptyStore (ValidateStep.receipt interveningReceipt))
    (ConsistentRun.cons emptyStore (ValidateStep.receipt interveningReceipt) []
      (stepStore emptyStore (ValidateStep.receipt interveningReceipt))
      trivial
      (ConsistentRun.nil (stepStore emptyStore (ValidateStep.receipt interveningReceipt))))

/-- C10: a transfer-creation request whose source warehouse equals its
destination warehouse is rejected before the insert: the transfers table is
returned unchanged and the error toast is reported. -/
theorem transfer_same_warehouse_reject (newId w product : Nat) (quantity : Int)
    (transfers : List TransferDoc) :
    handleSubmitTransfer newId w w product quantity transfers = (transfers, false) := by
  simp [handleSubmitTransfer]

end InventoryHub
